import Mathlib

/-!
Verification of the apk-tools `fetch` applet (src/fetch.c).

The C code is shallowly embedded: every external effect (lstat, readlink,
link, creat, stream open, splice) is an oracle carried by an explicit
environment value, and `fetch_package` / `fetch_main` are pure functions
from that environment to a result holding the return code, the trace of
observable events (messages, errors, syscalls) and the final state of the
destination path.
-/

namespace ApkFetch

/-- Outcome of `apk_pkg_version_compare` (APK_VERSION_LESS / EQUAL / GREATER). -/
inductive VCmp where
  | less
  | equal
  | greater
deriving DecidableEq, Repr

/-- An `apk_package`: the fields `fetch_package` reads (name, version,
declared size, repository-membership bitmask `repos`). -/
structure Package where
  name : String
  version : String
  size : Int
  repos : Nat
deriving DecidableEq, Repr

/-- The parsed `fetch_ctx`: FETCH_RECURSIVE, FETCH_STDOUT, FETCH_LINK and
the `-o` output directory. -/
structure FetchCtx where
  recursive : Bool
  stdoutFlag : Bool
  linkFlag : Bool
  outdir : Option String
deriving DecidableEq, Repr

/-- The `apk_database` as consumed by fetch.c: result of `apk_db_open`,
repository URLs by slot index, `apk_db_get_name(...)->pkgs` (`none` models a
NULL pkgs array), and `apk_state_lock_dependency` followed by walking
`change_list_head` (`none` models a failed lock, `some l` the ordered list of
`change->newpkg`). -/
structure Db where
  openResult : Int
  repoUrl : Nat → String
  lookup : String → Option (List Package)
  resolve : String → Option (List Package)

/-- The outside world seen by one `fetch_package` call: the process-wide
APK_SIMULATE flag, the prior state of the destination path (`destInit` is the
`lstat` size, `none` when no file exists there), and oracles for
`apk_url_local_file`, `readlink` (`none` models a failed or truncated read,
in which case the C buffer holds indeterminate bytes `garbage`), the size of
the local file a successful `link` points the destination at, `link`,
`creat`, `apk_istream_from_url` and `apk_istream_splice`. -/
structure Env where
  simulate : Bool
  destInit : Option Int
  urlLocalFile : String → Bool
  readlinkRes : String → Option String
  garbage : String
  linkSrcSize : Int
  linkOk : String → String → Bool
  creatOk : Bool
  streamOk : String → Bool
  spliceBytes : String → Int

/-- Observable events of one `fetch_package` call, in program order:
`apk_message`, `apk_error`, the readlink+link attempt, `creat`, the
`apk_istream_from_url` open attempt, `apk_istream_splice`, `unlink`. -/
inductive Event where
  | message (s : String)
  | error (s : String)
  | linkAttempt
  | creatFile (path : String)
  | streamOpen (url : String)
  | splice (n : Int)
  | unlinkFile (path : String)
deriving DecidableEq, Repr

/-- Result of one `fetch_package` call: the C return value, the event trace,
and the final state of the destination path (`some n` = a file of `n` bytes
exists there, `none` = no file). -/
structure FetchResult where
  ret : Int
  events : List Event
  dest : Option Int
deriving DecidableEq, Repr

/-- Modelled from the spec: APK_MAX_REPOS, the fixed bounded number of
configured repository slots, comes from apk_database.h which is not part of
the provided source; the spec only requires the slot set to be fixed and
bounded, and apk-tools of this era uses 32. No claim depends on the value. -/
def APK_MAX_REPOS : Nat := 32

/-- The ascending scan `for (i = 0; i < APK_MAX_REPOS; i++) if (repos & BIT(i)) break;`
starting at slot `i` with `fuel` slots left; `none` models falling off the end
(`i >= APK_MAX_REPOS`). -/
def scanFrom (repos : Nat) : Nat → Nat → Option Nat
  | _, 0 => none
  | i, fuel + 1 => if repos.testBit i then some i else scanFrom repos (i + 1) fuel

/-- The repository slot fetch.c picks for a package: the first set bit of the
membership mask, scanning slots 0, 1, ... in ascending order. -/
def repoIndex (repos : Nat) : Option Nat :=
  scanFrom repos 0 APK_MAX_REPOS

/-- The `<name>-<version>.apk` file name used for both paths. -/
def pkgFile (pkg : Package) : String :=
  pkg.name ++ "-" ++ pkg.version ++ ".apk"

/-- The destination path: `snprintf(outfile, ..., "%s/%s-%s.apk", outdir ? outdir : ".", ...)`. -/
def outfileOf (fctx : FetchCtx) (pkg : Package) : String :=
  (fctx.outdir.getD ".") ++ "/" ++ pkgFile pkg

/-- The source locator: `snprintf(infile, ..., "%s/%s-%s.apk", db->repos[i].url, ...)`. -/
def infileOf (db : Db) (i : Nat) (pkg : Package) : String :=
  db.repoUrl i ++ "/" ++ pkgFile pkg

/-- Lines 110-124 of fetch.c: open the stream from `infile`, splice up to
`pkg.size` bytes into the already-selected sink, close both, and on a byte
count mismatch emit an error, `unlink(outfile)` and fail.  `destNow` is the
state of the destination path on entry (just after creat, or untouched in
stdout mode where `outfile` is an uninitialized buffer, modelled by
`env.garbage`). -/
def splicePhase (env : Env) (pkg : Package) (infile outfile : String)
    (isStdout : Bool) (destNow : Option Int) (ev : List Event) : FetchResult :=
  let ev := ev ++ [Event.streamOpen infile]
  if env.streamOk infile = true then
    let r := env.spliceBytes infile
    let ev := ev ++ [Event.splice r]
    if r = pkg.size then
      { ret := 0, events := ev, dest := if isStdout then destNow else some pkg.size }
    else
      if isStdout then
        { ret := -1,
          events := ev ++ [Event.error ("Unable to download " ++ infile),
                           Event.unlinkFile env.garbage],
          dest := destNow }
      else
        { ret := -1,
          events := ev ++ [Event.error ("Unable to download " ++ infile),
                           Event.unlinkFile outfile],
          dest := none }
  else
    { ret := -1,
      events := ev ++ [Event.error ("Unable to download " ++ infile)],
      dest := destNow }

/-- Lines 103-107 of fetch.c: `creat(outfile, 0644)`; on success the
destination now holds an empty file and the splice phase runs; on failure an
error naming `outfile` is emitted and the call fails. -/
def creatPhase (env : Env) (pkg : Package) (infile outfile : String)
    (ev : List Event) : FetchResult :=
  if env.creatOk = true then
    splicePhase env pkg infile outfile false (some 0) (ev ++ [Event.creatFile outfile])
  else
    { ret := -1,
      events := ev ++ [Event.error (outfile ++ ": cannot create file")],
      dest := env.destInit }

/-- fetch_package (fetch.c lines 54-127).  Faithful control flow:
skip-if-present pre-check (only without FETCH_STDOUT), progress message,
ascending repository scan with error on miss, APK_SIMULATE early success,
hardlink fast path (FETCH_LINK and a local source locator; a failed readlink
leaves the buffer indeterminate and `link` is called with it anyway), creat,
stream open, size-verified splice with unlink-on-mismatch. -/
def fetch_package (fctx : FetchCtx) (db : Db) (env : Env) (pkg : Package) :
    FetchResult :=
  let outfile := outfileOf fctx pkg
  if fctx.stdoutFlag = false ∧ env.destInit = some pkg.size then
    { ret := 0, events := [], dest := env.destInit }
  else
    let ev := [Event.message ("Downloading " ++ pkg.name ++ "-" ++ pkg.version)]
    match repoIndex pkg.repos with
    | none =>
        { ret := -1,
          events := ev ++ [Event.error (pkg.name ++ "-" ++ pkg.version ++
                                        ": not present in any repository")],
          dest := env.destInit }
    | some i =>
        if env.simulate = true then
          { ret := 0, events := ev, dest := env.destInit }
        else
          let infile := infileOf db i pkg
          if fctx.stdoutFlag = true then
            splicePhase env pkg infile outfile true env.destInit ev
          else
            if fctx.linkFlag = true ∧ env.urlLocalFile infile = true then
              let real := (env.readlinkRes infile).getD env.garbage
              let ev := ev ++ [Event.linkAttempt]
              if env.linkOk real outfile = true then
                { ret := 0, events := ev, dest := some env.linkSrcSize }
              else
                creatPhase env pkg infile outfile ev
            else
              creatPhase env pkg infile outfile ev

/-- Observable events of `fetch_main`: `apk_state_new`, `apk_state_unref`, a
`fetch_package` call on a concrete package, `apk_error`, `apk_message`, and a
marker for the undefined NULL dereference reached when a name has a non-NULL
but empty pkgs array. -/
inductive MEvent where
  | stateNew
  | stateUnref
  | fetchAttempt (p : Package)
  | errorMsg (s : String)
  | message (s : String)
  | nullDeref
deriving DecidableEq, Repr

/-- One step of the non-recursive selection loop (fetch.c lines 168-173):
`if (pkg == NULL || apk_pkg_version_compare(item, pkg) == APK_VERSION_GREATER) pkg = item;`. -/
def selStepV (vcmp : Package → Package → VCmp) (acc : Option Package)
    (p : Package) : Option Package :=
  match acc with
  | none => some p
  | some q => if vcmp p q = VCmp.greater then some p else some q

/-- The non-recursive selection loop over a name's package variants. -/
def selectPkg (vcmp : Package → Package → VCmp) (pkgs : List Package) :
    Option Package :=
  pkgs.foldl (selStepV vcmp) none

/-- The recursive-branch loop (fetch.c lines 158-162): fetch each change's
package in list order; the first nonzero return does `goto err`, skipping the
rest. -/
def fetchList (fctx : FetchCtx) (db : Db) (envFor : Package → Env) :
    List Package → Int × List MEvent
  | [] => (0, [])
  | p :: rest =>
    let r := (fetch_package fctx db (envFor p) p).ret
    if r = 0 then
      let pr := fetchList fctx db envFor rest
      (pr.1, MEvent.fetchAttempt p :: pr.2)
    else
      (r, [MEvent.fetchAttempt p])

/-- Processing of one positional argument (one iteration of the loop at
fetch.c lines 139-183).  Recursive branch: `apk_state_new`, lock the
dependency (on failure: unref, error, goto err), walk the change list, and
unref only when the walk completes; a fetch failure jumps to `err` without
the unref.  Non-recursive branch: pick the variant the selection loop keeps
and fetch it; with a NULL pkgs array, message and fail. -/
def processArg (fctx : FetchCtx) (db : Db) (vcmp : Package → Package → VCmp)
    (envFor : Package → Env) (arg : String) : Int × List MEvent :=
  if fctx.recursive = true then
    match db.resolve arg with
    | none =>
        (-1, [MEvent.stateNew, MEvent.stateUnref,
              MEvent.errorMsg ("Unable to install " ++ arg)])
    | some changes =>
        let pr := fetchList fctx db envFor changes
        if pr.1 = 0 then
          (0, MEvent.stateNew :: pr.2 ++ [MEvent.stateUnref])
        else
          (pr.1, MEvent.stateNew :: pr.2)
  else
    match db.lookup arg with
    | some pkgs =>
        match selectPkg vcmp pkgs with
        | none => (-1, [MEvent.nullDeref])
        | some pkg =>
            ((fetch_package fctx db (envFor pkg) pkg).ret,
             [MEvent.fetchAttempt pkg])
    | none =>
        (-1, [MEvent.message ("Unable to get " ++ arg)])

/-- The argument loop of fetch_main: any nonzero result from one argument
ends the run (goto err / break) with that result. -/
def runArgs (fctx : FetchCtx) (db : Db) (vcmp : Package → Package → VCmp)
    (envFor : Package → Env) : List String → Int × List MEvent
  | [] => (0, [])
  | a :: rest =>
    let pr := processArg fctx db vcmp envFor a
    if pr.1 = 0 then
      let pr2 := runArgs fctx db vcmp envFor rest
      (pr2.1, pr.2 ++ pr2.2)
    else
      pr

/-- fetch_main (fetch.c lines 129-188): open the database (a nonzero open
result is returned at once), then run the argument loop; the database is
closed on every exit path and plays no further part in the result. -/
def fetch_main (fctx : FetchCtx) (db : Db) (vcmp : Package → Package → VCmp)
    (envFor : Package → Env) (args : List String) : Int × List MEvent :=
  if db.openResult = 0 then runArgs fctx db vcmp envFor args
  else (db.openResult, [])

/-- Spec-side selection, written from the spec's words: the variant fetched
is the one comparing greatest, with ties keeping the earlier-indexed variant
(a later variant displaces the current choice only when strictly greater).
To be compared with `selectPkg`, the loop embedded from the source. -/
def firstMaxBy (key : Package → Nat) : List Package → Option Package
  | [] => none
  | p :: rest =>
    match firstMaxBy key rest with
    | none => some p
    | some q => if key q > key p then some q else some p

/-! Concrete inputs used to exercise the theorems below. -/

/-- Concrete package: declared size 7, present in repository slot 0. -/
def wpkg : Package := Package.mk "a" "1" 7 1

/-- Concrete package present in no repository slot. -/
def wpkgNoRepo : Package := Package.mk "b" "2" 5 0

/-- Plain option context: file fetch into the current directory. -/
def wctx : FetchCtx := FetchCtx.mk false false false none

/-- Option context with FETCH_RECURSIVE. -/
def wctxR : FetchCtx := FetchCtx.mk true false false none

/-- Option context with FETCH_LINK. -/
def wctxL : FetchCtx := FetchCtx.mk false false true none

/-- Database with one repository URL and no name data. -/
def wdb : Db := Db.mk 0 (fun _ => "r") (fun _ => none) (fun _ => none)

/-- World with no destination file and a stream that delivers only 3 of the
expected 7 bytes. -/
def wenvShort : Env :=
  Env.mk false none (fun _ => false) (fun _ => none) "g" 0 (fun _ _ => false)
    true (fun _ => true) (fun _ => 3)

/-- World where the source stream fails to open. -/
def wenvOpenFail : Env := { wenvShort with streamOk := fun _ => false }

/-- World where the stream delivers exactly the declared 7 bytes. -/
def wenvOk : Env := { wenvShort with spliceBytes := fun _ => 7 }

/-- World where the destination already holds a 7-byte file. -/
def wenvHit : Env := { wenvShort with destInit := some 7 }

/-- World where the destination already holds a 5-byte file. -/
def wenvHit5 : Env := { wenvShort with destInit := some 5 }

/-- World with APK_SIMULATE set. -/
def wenvSim : Env := { wenvShort with simulate := true }

/-- World where the source locator is local and the hard link succeeds. -/
def wenvLink : Env :=
  { wenvShort with urlLocalFile := fun _ => true, linkOk := fun _ _ => true,
                   linkSrcSize := 7 }

/-- Recursive-run database resolving any name to the repo-less package. -/
def wdbR : Db := Db.mk 0 (fun _ => "r") (fun _ => none) (fun _ => some [wpkgNoRepo])

/-- Trivial version comparison used where the comparison is irrelevant. -/
def wvcmpTriv : Package → Package → VCmp := fun _ _ => VCmp.equal

/-- Variant packages of one name with versions 1.0, 1.2, 1.1. -/
def v10 : Package := Package.mk "a" "1.0" 7 1

/-- Variant with version 1.2 (the greatest). -/
def v12 : Package := Package.mk "a" "1.2" 7 1

/-- Variant with version 1.1. -/
def v11 : Package := Package.mk "a" "1.1" 7 1

/-- Database holding the three variants of name a. -/
def wdbN : Db := Db.mk 0 (fun _ => "r") (fun _ => some [v10, v12, v11]) (fun _ => none)

/-- Numeric key giving the version ordering of the three variants. -/
def wkey : Package → Nat := fun p =>
  if p.version = "1.2" then 12 else if p.version = "1.1" then 11 else 10

/-- Version comparison induced by `wkey`. -/
def wvcmp : Package → Package → VCmp := fun a b =>
  if wkey a > wkey b then VCmp.greater
  else if wkey b > wkey a then VCmp.less
  else VCmp.equal

/-- Recursive-run chain A (already present), B (fails: no repository), C. -/
def pA : Package := Package.mk "A" "1" 3 1

/-- Chain member that fails: present in no repository. -/
def pB : Package := wpkgNoRepo

/-- Chain member after the failure. -/
def pC : Package := Package.mk "C" "3" 4 1

/-- Database resolving any name to the chain A, B, C. -/
def wdbChain : Db := Db.mk 0 (fun _ => "r") (fun _ => none) (fun _ => some [pA, pB, pC])

/-- World where a 3-byte file is already present (so fetching A is a no-op hit). -/
def wenvA : Env := { wenvShort with destInit := some 3 }

/-! Helper lemmas about the repository scan. -/

/-- The ascending scan returns the first set bit in its window. -/
theorem scanFrom_least (repos : Nat) :
    ∀ (fuel i k : Nat), i ≤ k → k < i + fuel → repos.testBit k = true →
      (∀ j, i ≤ j → j < k → repos.testBit j = false) →
      scanFrom repos i fuel = some k
  | 0, _, _, hik, hk, _, _ => by omega
  | fuel + 1, i, k, hik, hk, hbit, hmin => by
      by_cases h : i = k
      · subst h
        simp [scanFrom, hbit]
      · have hi : repos.testBit i = false := hmin i le_rfl (by omega)
        simp only [scanFrom, hi, Bool.false_eq_true, if_false]
        exact scanFrom_least repos fuel (i + 1) k (by omega) (by omega) hbit
          (fun j hj1 hj2 => hmin j (by omega) hj2)

/-- The ascending scan finds nothing when no bit in its window is set. -/
theorem scanFrom_none (repos : Nat) :
    ∀ (fuel i : Nat), (∀ j, i ≤ j → j < i + fuel → repos.testBit j = false) →
      scanFrom repos i fuel = none
  | 0, _, _ => rfl
  | fuel + 1, i, h => by
      have hi : repos.testBit i = false := h i le_rfl (by omega)
      simp only [scanFrom, hi, Bool.false_eq_true, if_false]
      exact scanFrom_none repos fuel (i + 1) (fun j hj1 hj2 => h j (by omega) (by omega))

/-! Helper lemmas about the non-recursive selection loop. -/

/-- A `none` first maximum only happens on the empty list. -/
theorem firstMaxBy_eq_none (key : Package → Nat) :
    ∀ l, firstMaxBy key l = none → l = []
  | [], _ => rfl
  | p :: l, h => by
      cases hM : firstMaxBy key l with
      | none => simp [firstMaxBy, hM] at h
      | some q =>
          simp only [firstMaxBy, hM] at h
          split_ifs at h

/-- Swapping the head pair under `firstMaxBy`: keeping whichever of the first
two elements wins (strictly-greater replaces, tie keeps the earlier) does not
change the overall first maximum. -/
theorem firstMaxBy_cons_cons (key : Package → Nat) (q p : Package) (l : List Package) :
    firstMaxBy key ((if key p > key q then p else q) :: l) =
      firstMaxBy key (q :: p :: l) := by
  cases hM : firstMaxBy key l with
  | none =>
      have hl : l = [] := firstMaxBy_eq_none key l hM
      subst hl
      by_cases hA : key p > key q
      · simp [firstMaxBy, hA]
      · simp [firstMaxBy, hA]
  | some m =>
      by_cases hA : key p > key q
      · by_cases hB : key m > key p
        · have hC : key m > key q := by omega
          simp [firstMaxBy, hM, hA, hB, hC]
        · simp [firstMaxBy, hM, hA, hB]
      · by_cases hB : key m > key p
        · by_cases hC : key m > key q
          · simp [firstMaxBy, hM, hA, hB, hC]
          · simp [firstMaxBy, hM, hA, hB, hC]
        · have hC : ¬ key m > key q := by omega
          simp [firstMaxBy, hM, hA, hB, hC]

/-- The selection loop with a current choice `q` computes the first maximum
of `q` followed by the remaining variants, provided the comparison answers
greater exactly on strictly greater keys. -/
theorem selectPkg_foldl_aux (vcmp : Package → Package → VCmp) (key : Package → Nat)
    (hv : ∀ a b, vcmp a b = VCmp.greater ↔ key a > key b) :
    ∀ (l : List Package) (q : Package),
      List.foldl (selStepV vcmp) (some q) l = firstMaxBy key (q :: l)
  | [], q => by simp [firstMaxBy]
  | p :: l, q => by
      rw [List.foldl_cons]
      have hstep : selStepV vcmp (some q) p = some (if key p > key q then p else q) := by
        simp only [selStepV]
        rw [if_congr (hv p q) rfl rfl, apply_ite some]
      rw [hstep, apply_ite (fun x => List.foldl (selStepV vcmp) (some x) l)]
      by_cases h : key p > key q
      · simp only [h, if_pos]
        rw [selectPkg_foldl_aux vcmp key hv l p, ← firstMaxBy_cons_cons key q p l, if_pos h]
      · simp only [h, if_neg, if_false]
        rw [selectPkg_foldl_aux vcmp key hv l q, ← firstMaxBy_cons_cons key q p l, if_neg h]

/-- The source's selection loop agrees with the spec-side first-maximum
selection whenever the version comparison is induced by a numeric key. -/
theorem selectPkg_eq_firstMaxBy (vcmp : Package → Package → VCmp) (key : Package → Nat)
    (hv : ∀ a b, vcmp a b = VCmp.greater ↔ key a > key b) (l : List Package) :
    selectPkg vcmp l = firstMaxBy key l := by
  cases l with
  | nil => rfl
  | cons p l =>
      have h := selectPkg_foldl_aux vcmp key hv l p
      simpa [selectPkg, List.foldl_cons, selStepV] using h

/-- The first maximum dominates every element of the list. -/
theorem firstMaxBy_max (key : Package → Nat) :
    ∀ (l : List Package) (m : Package), firstMaxBy key l = some m →
      ∀ x ∈ l, key x ≤ key m
  | [], _, h => by simp [firstMaxBy] at h
  | p :: l, m, h => by
      cases hM : firstMaxBy key l with
      | none =>
          have hl : l = [] := firstMaxBy_eq_none key l hM
          subst hl
          simp only [firstMaxBy, Option.some.injEq] at h
          subst h
          intro x hx
          simp only [List.mem_singleton] at hx
          subst hx
          exact le_rfl
      | some q =>
          simp only [firstMaxBy, hM] at h
          have ih := firstMaxBy_max key l q hM
          intro x hx
          rcases List.mem_cons.mp hx with hxp | hxl
          · subst hxp
            split_ifs at h with hgt <;> injection h with h <;> subst h
            · omega
            · exact le_rfl
          · have hxq := ih x hxl
            split_ifs at h with hgt <;> injection h with h <;> subst h
            · exact hxq
            · omega

/-! Helper lemma about the recursive fetch loop. -/

/-- When every package of a prefix fetches cleanly and the next one fails,
the loop attempts exactly the prefix plus the failing package, in order, and
returns the failing result: nothing after the failure is attempted. -/
theorem fetchList_prefix_fail (fctx : FetchCtx) (db : Db) (envFor : Package → Env) :
    ∀ (l₁ : List Package) (p : Package) (l₂ : List Package),
      (∀ q ∈ l₁, (fetch_package fctx db (envFor q) q).ret = 0) →
      (fetch_package fctx db (envFor p) p).ret ≠ 0 →
      fetchList fctx db envFor (l₁ ++ p :: l₂) =
        ((fetch_package fctx db (envFor p) p).ret,
         (l₁ ++ [p]).map MEvent.fetchAttempt)
  | [], p, l₂, _, hp => by simp [fetchList, hp]
  | q :: l₁, p, l₂, h1, hp => by
      have hq : (fetch_package fctx db (envFor q) q).ret = 0 :=
        h1 q (List.mem_cons_self q l₁)
      have ih := fetchList_prefix_fail fctx db envFor l₁ p l₂
        (fun x hx => h1 x (List.mem_cons_of_mem q hx)) hp
      simp [fetchList, hq, ih]

/-! Claim theorems. -/

/-- C1: for a fetch to a file destination that reaches the splice with an
open stream, a spliced byte count different from the declared size makes
fetch_package fail (return -1) and leaves no file at the destination path. -/
theorem fetch_short_transfer_cleanup (fctx : FetchCtx) (db : Db) (env : Env)
    (pkg : Package) (i : Nat)
    (hstd : fctx.stdoutFlag = false)
    (hpre : env.destInit ≠ some pkg.size)
    (hrepo : repoIndex pkg.repos = some i)
    (hsim : env.simulate = false)
    (hnl : fctx.linkFlag = true → env.urlLocalFile (infileOf db i pkg) = true →
        env.linkOk ((env.readlinkRes (infileOf db i pkg)).getD env.garbage)
          (outfileOf fctx pkg) = false)
    (hcreat : env.creatOk = true)
    (hopen : env.streamOk (infileOf db i pkg) = true)
    (hbytes : env.spliceBytes (infileOf db i pkg) ≠ pkg.size) :
    (fetch_package fctx db env pkg).ret = -1 ∧
    (fetch_package fctx db env pkg).dest = none ∧
    Event.streamOpen (infileOf db i pkg) ∈ (fetch_package fctx db env pkg).events := by
  by_cases hl : fctx.linkFlag = true ∧ env.urlLocalFile (infileOf db i pkg) = true
  · have hnl' := hnl hl.1 hl.2
    simp [fetch_package, creatPhase, splicePhase, hstd, hpre, hrepo, hsim, hl, hnl',
      hcreat, hopen, hbytes]
  · simp [fetch_package, creatPhase, splicePhase, hstd, hpre, hrepo, hsim, hl,
      hcreat, hopen, hbytes]

/-- C1 witness: short transfer of 3 of 7 bytes at a concrete input. -/
theorem fetch_short_transfer_cleanup_witness :
    (fetch_package wctx wdb wenvShort wpkg).ret = -1 ∧
    (fetch_package wctx wdb wenvShort wpkg).dest = none ∧
    Event.streamOpen (infileOf wdb 0 wpkg) ∈ (fetch_package wctx wdb wenvShort wpkg).events :=
  fetch_short_transfer_cleanup wctx wdb wenvShort wpkg 0 rfl (by decide) rfl rfl
    (by decide) rfl rfl (by decide)

/-- C2 counterexample: when the source stream fails to open after the
destination file has been created, fetch_package fails yet the created
(empty) file is left at the destination path — refuting the claim that every
failing fetch removes a created destination file. -/
theorem fetch_openfail_leaves_empty_file :
    (fetch_package wctx wdb wenvOpenFail wpkg).ret ≠ 0 ∧
    Event.creatFile (outfileOf wctx wpkg) ∈ (fetch_package wctx wdb wenvOpenFail wpkg).events ∧
    (fetch_package wctx wdb wenvOpenFail wpkg).dest = some 0 := by
  decide

/-- C2 amended: for a failing fetch to a file destination, the destination
file is removed when the failure is a splice-length mismatch; but when the
source stream fails to open, the file just created by creat remains (empty)
at the destination path. -/
theorem fetch_failure_cleanup_amended (fctx : FetchCtx) (db : Db) (env : Env)
    (pkg : Package) (i : Nat)
    (hstd : fctx.stdoutFlag = false)
    (hpre : env.destInit ≠ some pkg.size)
    (hrepo : repoIndex pkg.repos = some i)
    (hsim : env.simulate = false)
    (hnl : fctx.linkFlag = true → env.urlLocalFile (infileOf db i pkg) = true →
        env.linkOk ((env.readlinkRes (infileOf db i pkg)).getD env.garbage)
          (outfileOf fctx pkg) = false)
    (hcreat : env.creatOk = true) :
    (env.streamOk (infileOf db i pkg) = true →
        env.spliceBytes (infileOf db i pkg) ≠ pkg.size →
        (fetch_package fctx db env pkg).ret = -1 ∧
        (fetch_package fctx db env pkg).dest = none) ∧
    (env.streamOk (infileOf db i pkg) = false →
        (fetch_package fctx db env pkg).ret = -1 ∧
        Event.creatFile (outfileOf fctx pkg) ∈ (fetch_package fctx db env pkg).events ∧
        (fetch_package fctx db env pkg).dest = some 0) := by
  constructor
  · intro hopen hbytes
    by_cases hl : fctx.linkFlag = true ∧ env.urlLocalFile (infileOf db i pkg) = true
    · have hnl' := hnl hl.1 hl.2
      simp [fetch_package, creatPhase, splicePhase, hstd, hpre, hrepo, hsim, hl, hnl',
        hcreat, hopen, hbytes]
    · simp [fetch_package, creatPhase, splicePhase, hstd, hpre, hrepo, hsim, hl,
        hcreat, hopen, hbytes]
  · intro hopen
    by_cases hl : fctx.linkFlag = true ∧ env.urlLocalFile (infileOf db i pkg) = true
    · have hnl' := hnl hl.1 hl.2
      simp [fetch_package, creatPhase, splicePhase, hstd, hpre, hrepo, hsim, hl, hnl',
        hcreat, hopen]
    · simp [fetch_package, creatPhase, splicePhase, hstd, hpre, hrepo, hsim, hl,
      hcreat, hopen]

/-- C2 amended witness: the open-failure branch at a concrete input. -/
theorem fetch_failure_cleanup_amended_witness :
    (fetch_package wctx wdb wenvOpenFail wpkg).ret = -1 ∧
    Event.creatFile (outfileOf wctx wpkg) ∈ (fetch_package wctx wdb wenvOpenFail wpkg).events ∧
    (fetch_package wctx wdb wenvOpenFail wpkg).dest = some 0 :=
  (fetch_failure_cleanup_amended wctx wdb wenvOpenFail wpkg 0 rfl (by decide) rfl rfl
    (by decide) rfl).2 rfl

/-- C3: with stdout mode off and a file of exactly the declared size already
at the derived output path, fetch_package returns success at once with no
events and no filesystem change; moreover a completed streaming fetch leaves
the destination at exactly the declared size, so an immediately repeated
fetch is a no-op success. -/
theorem fetch_precheck_idempotent (fctx : FetchCtx) (db : Db) (env env' : Env)
    (pkg : Package) (i : Nat)
    (hstd : fctx.stdoutFlag = false)
    (hpre : env.destInit = some pkg.size)
    (h'pre : env'.destInit ≠ some pkg.size)
    (hrepo : repoIndex pkg.repos = some i)
    (h'sim : env'.simulate = false)
    (h'nl : fctx.linkFlag = true → env'.urlLocalFile (infileOf db i pkg) = true →
        env'.linkOk ((env'.readlinkRes (infileOf db i pkg)).getD env'.garbage)
          (outfileOf fctx pkg) = false)
    (h'creat : env'.creatOk = true)
    (h'open : env'.streamOk (infileOf db i pkg) = true)
    (h'bytes : env'.spliceBytes (infileOf db i pkg) = pkg.size) :
    fetch_package fctx db env pkg = { ret := 0, events := [], dest := env.destInit } ∧
    (fetch_package fctx db env' pkg).ret = 0 ∧
    (fetch_package fctx db env' pkg).dest = some pkg.size ∧
    fetch_package fctx db { env' with destInit := (fetch_package fctx db env' pkg).dest } pkg
      = { ret := 0, events := [], dest := some pkg.size } := by
  have h1 : fetch_package fctx db env pkg = { ret := 0, events := [], dest := env.destInit } := by
    simp [fetch_package, hstd, hpre]
  have h2 : (fetch_package fctx db env' pkg).ret = 0 ∧
      (fetch_package fctx db env' pkg).dest = some pkg.size := by
    by_cases hl : fctx.linkFlag = true ∧ env'.urlLocalFile (infileOf db i pkg) = true
    · have hnl' := h'nl hl.1 hl.2
      simp [fetch_package, creatPhase, splicePhase, hstd, h'pre, hrepo, h'sim, hl, hnl',
        h'creat, h'open, h'bytes]
    · simp [fetch_package, creatPhase, splicePhase, hstd, h'pre, hrepo, h'sim, hl,
        h'creat, h'open, h'bytes]
  refine ⟨h1, h2.1, h2.2, ?_⟩
  rw [h2.2]
  simp [fetch_package, hstd]

/-- C3 witness: a pre-check hit and a full fetch followed by a no-op refetch. -/
theorem fetch_precheck_idempotent_witness :
    fetch_package wctx wdb wenvHit wpkg = { ret := 0, events := [], dest := wenvHit.destInit } ∧
    (fetch_package wctx wdb wenvOk wpkg).ret = 0 ∧
    (fetch_package wctx wdb wenvOk wpkg).dest = some wpkg.size ∧
    fetch_package wctx wdb { wenvOk with destInit := (fetch_package wctx wdb wenvOk wpkg).dest } wpkg
      = { ret := 0, events := [], dest := some wpkg.size } :=
  fetch_precheck_idempotent wctx wdb wenvHit wenvOk wpkg 0 rfl rfl (by decide) rfl rfl
    (by decide) rfl rfl rfl

/-- C4: fetch_package scans the bounded repository slots in ascending order,
so the slot chosen is the smallest index present in the membership set; when
no slot carries the package it fails with a user-visible error naming the
package, attempts no stream open, and leaves the filesystem unchanged. -/
theorem fetch_repo_selection (fctx : FetchCtx) (db : Db) (env : Env) (pkg : Package)
    (hpre : ¬(fctx.stdoutFlag = false ∧ env.destInit = some pkg.size)) :
    (∀ i, i < APK_MAX_REPOS → pkg.repos.testBit i = true →
        (∀ j, j < i → pkg.repos.testBit j = false) →
        repoIndex pkg.repos = some i) ∧
    ((∀ j, j < APK_MAX_REPOS → pkg.repos.testBit j = false) →
        (fetch_package fctx db env pkg).ret = -1 ∧
        Event.error (pkg.name ++ "-" ++ pkg.version ++ ": not present in any repository")
          ∈ (fetch_package fctx db env pkg).events ∧
        (∀ u, Event.streamOpen u ∉ (fetch_package fctx db env pkg).events) ∧
        (fetch_package fctx db env pkg).dest = env.destInit) := by
  constructor
  · intro i hi hbit hmin
    exact scanFrom_least pkg.repos APK_MAX_REPOS 0 i (Nat.zero_le i) (by omega) hbit
      (fun j _ hj => hmin j hj)
  · intro hempty
    have hnone : repoIndex pkg.repos = none :=
      scanFrom_none pkg.repos APK_MAX_REPOS 0 (fun j _ hj => hempty j (by omega))
    simp [fetch_package, hpre, hnone]

/-- C4 witness: slot 0 is chosen for mask 1; the empty mask yields the error
with no stream open. -/
theorem fetch_repo_selection_witness :
    repoIndex wpkg.repos = some 0 ∧
    (fetch_package wctx wdb wenvShort wpkgNoRepo).ret = -1 ∧
    Event.error (wpkgNoRepo.name ++ "-" ++ wpkgNoRepo.version ++ ": not present in any repository")
      ∈ (fetch_package wctx wdb wenvShort wpkgNoRepo).events ∧
    Event.streamOpen (infileOf wdb 0 wpkgNoRepo) ∉ (fetch_package wctx wdb wenvShort wpkgNoRepo).events := by
  have h1 := (fetch_repo_selection wctx wdb wenvShort wpkg (by decide)).1 0 (by decide)
    (by decide) (fun j hj => absurd hj (Nat.not_lt_zero j))
  have h2 := (fetch_repo_selection wctx wdb wenvShort wpkgNoRepo (by decide)).2
    (fun j _ => Nat.zero_testBit j)
  exact ⟨h1, h2.1, h2.2.1, h2.2.2.1 _⟩

/-- C7: with the process-wide simulate flag set and a non-empty
repository-membership set, fetch_package reports success, leaves the
destination path unchanged, and its whole trace is progress messages — no
file creation, no stream open, no other filesystem mutation. -/
theorem fetch_simulate_noop (fctx : FetchCtx) (db : Db) (env : Env) (pkg : Package)
    (i : Nat)
    (hsim : env.simulate = true) (hrepo : repoIndex pkg.repos = some i) :
    (fetch_package fctx db env pkg).ret = 0 ∧
    (fetch_package fctx db env pkg).dest = env.destInit ∧
    ∀ e ∈ (fetch_package fctx db env pkg).events, ∃ s, e = Event.message s := by
  by_cases hpre : fctx.stdoutFlag = false ∧ env.destInit = some pkg.size
  · simp [fetch_package, hpre]
  · simp [fetch_package, hpre, hrepo, hsim]

/-- C7 witness: simulate mode at a concrete input creates no file and opens
no stream. -/
theorem fetch_simulate_noop_witness :
    (fetch_package wctx wdb wenvSim wpkg).ret = 0 ∧
    (fetch_package wctx wdb wenvSim wpkg).dest = none ∧
    Event.creatFile (outfileOf wctx wpkg) ∉ (fetch_package wctx wdb wenvSim wpkg).events := by
  have h := fetch_simulate_noop wctx wdb wenvSim wpkg 0 rfl rfl
  refine ⟨h.1, h.2.1, fun hmem => ?_⟩
  rcases h.2.2 _ hmem with ⟨s, hs⟩
  simp at hs

/-- C8: when link mode is on, the source locator is local, and the hard link
from the symlink-resolved source to the destination succeeds, fetch_package
returns success and the streaming fetch is never invoked: no stream open, no
splice, no destination file creation. -/
theorem fetch_hardlink_fastpath (fctx : FetchCtx) (db : Db) (env : Env) (pkg : Package)
    (i : Nat)
    (hstd : fctx.stdoutFlag = false)
    (hl : fctx.linkFlag = true)
    (hrepo : repoIndex pkg.repos = some i)
    (hlocal : env.urlLocalFile (infileOf db i pkg) = true)
    (hlink : env.linkOk ((env.readlinkRes (infileOf db i pkg)).getD env.garbage)
        (outfileOf fctx pkg) = true) :
    (fetch_package fctx db env pkg).ret = 0 ∧
    (∀ u, Event.streamOpen u ∉ (fetch_package fctx db env pkg).events) ∧
    (∀ n, Event.splice n ∉ (fetch_package fctx db env pkg).events) ∧
    (∀ p', Event.creatFile p' ∉ (fetch_package fctx db env pkg).events) := by
  by_cases hpre : env.destInit = some pkg.size
  · simp [fetch_package, hstd, hpre]
  · by_cases hsim : env.simulate = true
    · simp [fetch_package, hstd, hpre, hrepo, hsim]
    · simp [fetch_package, hstd, hpre, hrepo, hsim, hl, hlocal, hlink]

/-- C8 witness: a successful hard link at a concrete input with no stream
open and no file creation. -/
theorem fetch_hardlink_fastpath_witness :
    (fetch_package wctxL wdb wenvLink wpkg).ret = 0 ∧
    Event.streamOpen (infileOf wdb 0 wpkg) ∉ (fetch_package wctxL wdb wenvLink wpkg).events ∧
    Event.creatFile (outfileOf wctxL wpkg) ∉ (fetch_package wctxL wdb wenvLink wpkg).events := by
  have h := fetch_hardlink_fastpath wctxL wdb wenvLink wpkg 0 rfl rfl rfl rfl rfl
  exact ⟨h.1, h.2.1 _, h.2.2.2 _⟩

/-- C10: the skip-if-present pre-check takes precedence over the repository
lookup — even for a package present in no repository slot, a correctly sized
existing destination file makes fetch_package return success with no message,
no error and no filesystem change, never reaching the repository check. -/
theorem fetch_precheck_precedes_repo_check (fctx : FetchCtx) (db : Db) (env : Env)
    (pkg : Package)
    (hstd : fctx.stdoutFlag = false)
    (hpre : env.destInit = some pkg.size)
    (hrepos : ∀ j, j < APK_MAX_REPOS → pkg.repos.testBit j = false) :
    fetch_package fctx db env pkg = { ret := 0, events := [], dest := env.destInit } := by
  simp [fetch_package, hstd, hpre]

/-- C10 witness: a repo-less package with a correctly sized existing file. -/
theorem fetch_precheck_precedes_repo_check_witness :
    fetch_package wctx wdb wenvHit5 wpkgNoRepo
      = { ret := 0, events := [], dest := wenvHit5.destInit } :=
  fetch_precheck_precedes_repo_check wctx wdb wenvHit5 wpkgNoRepo rfl rfl
    (fun j _ => Nat.zero_testBit j)

/-- The concrete version comparison is induced by the concrete key. -/
theorem wvcmp_spec : ∀ a b, wvcmp a b = VCmp.greater ↔ wkey a > wkey b := by
  intro a b
  unfold wvcmp
  split_ifs with h1 h2 <;> simp [h1]

/-- C5: in non-recursive mode, for a name with a non-empty variant list and a
version comparison induced by a numeric key, the variant fetched is exactly
the spec-side first maximum — the greatest-keyed variant, ties keeping the
earlier-indexed one — and it dominates every variant. -/
theorem fetch_selects_greatest_version (fctx : FetchCtx) (db : Db)
    (vcmp : Package → Package → VCmp) (envFor : Package → Env) (arg : String)
    (pkgs : List Package) (key : Package → Nat) (m : Package)
    (hrec : fctx.recursive = false)
    (hopen : db.openResult = 0)
    (hlookup : db.lookup arg = some pkgs)
    (hv : ∀ a b, vcmp a b = VCmp.greater ↔ key a > key b)
    (hm : firstMaxBy key pkgs = some m) :
    (∀ x ∈ pkgs, key x ≤ key m) ∧
    fetch_main fctx db vcmp envFor [arg] =
      ((fetch_package fctx db (envFor m) m).ret, [MEvent.fetchAttempt m]) := by
  have hsel : selectPkg vcmp pkgs = some m := by
    rw [selectPkg_eq_firstMaxBy vcmp key hv, hm]
  refine ⟨firstMaxBy_max key pkgs m hm, ?_⟩
  by_cases hr : (fetch_package fctx db (envFor m) m).ret = 0
  · simp [fetch_main, runArgs, processArg, hrec, hopen, hlookup, hsel, hr]
  · simp [fetch_main, runArgs, processArg, hrec, hopen, hlookup, hsel, hr]

/-- C5 witness: among versions 1.0, 1.2 and 1.1 of one name, the 1.2 variant
is the one fetched. -/
theorem fetch_selects_greatest_version_witness :
    fetch_main wctx wdbN wvcmp (fun _ => wenvOk) ["a"] =
      ((fetch_package wctx wdbN wenvOk v12).ret, [MEvent.fetchAttempt v12]) := by
  have h := fetch_selects_greatest_version wctx wdbN wvcmp (fun _ => wenvOk) "a"
    [v10, v12, v11] wkey v12 rfl rfl rfl wvcmp_spec (by decide)
  exact h.2

/-- C6: in recursive mode the resolved packages are fetched in list order and
the first failure aborts the run — exactly the clean prefix and the failing
package are attempted, no later package of the list and no later argument,
and the run returns the failing result. -/
theorem fetch_recursive_order_abort (fctx : FetchCtx) (db : Db)
    (vcmp : Package → Package → VCmp) (envFor : Package → Env) (arg : String)
    (rest : List String) (l₁ : List Package) (p : Package) (l₂ : List Package)
    (hrec : fctx.recursive = true)
    (hopen : db.openResult = 0)
    (hres : db.resolve arg = some (l₁ ++ p :: l₂))
    (h1 : ∀ q ∈ l₁, (fetch_package fctx db (envFor q) q).ret = 0)
    (hp : (fetch_package fctx db (envFor p) p).ret ≠ 0) :
    fetch_main fctx db vcmp envFor (arg :: rest) =
      ((fetch_package fctx db (envFor p) p).ret,
       MEvent.stateNew :: (l₁ ++ [p]).map MEvent.fetchAttempt) ∧
    (fetch_main fctx db vcmp envFor (arg :: rest)).1 ≠ 0 := by
  have hfl := fetchList_prefix_fail fctx db envFor l₁ p l₂ h1 hp
  have hmain : fetch_main fctx db vcmp envFor (arg :: rest) =
      ((fetch_package fctx db (envFor p) p).ret,
       MEvent.stateNew :: (l₁ ++ [p]).map MEvent.fetchAttempt) := by
    simp [fetch_main, runArgs, processArg, hrec, hopen, hres, hfl, hp]
  exact ⟨hmain, by rw [hmain]; exact hp⟩

/-- C6 witness: chain A, B, C where B fails — A then B are attempted, C never. -/
theorem fetch_recursive_order_abort_witness :
    fetch_main wctxR wdbChain wvcmpTriv (fun _ => wenvA) ["x"] =
      ((fetch_package wctxR wdbChain wenvA pB).ret,
       MEvent.stateNew :: ([pA] ++ [pB]).map MEvent.fetchAttempt) := by
  have h := fetch_recursive_order_abort wctxR wdbChain wvcmpTriv (fun _ => wenvA) "x" []
    [pA] pB [pC] rfl rfl rfl (by decide) (by decide)
  exact h.1

/-- C9 evidence: in a recursive run where the fetch of a resolved package
fails, the run aborts with a resolution session created but never released —
the goto err path of fetch_main skips apk_state_unref. -/
theorem fetch_state_leak_on_failure :
    (fetch_main wctxR wdbR wvcmpTriv (fun _ => wenvShort) ["b"]).1 ≠ 0 ∧
    (fetch_main wctxR wdbR wvcmpTriv (fun _ => wenvShort) ["b"]).2.count MEvent.stateNew = 1 ∧
    (fetch_main wctxR wdbR wvcmpTriv (fun _ => wenvShort) ["b"]).2.count MEvent.stateUnref = 0 := by
  decide

end ApkFetch
